import Mathlib

/-!
Verification of the seren-skills gateway clients.

The development shallowly embeds the Python sources of the repository:

* `src/coinbase/grid-trader/scripts/seren_client.py` (`Coinbase` namespace),
* `src/polymarket/bot/scripts/polymarket_client.py` (`Polymarket` namespace),
* `src/curve/curve-gauge-yield-trader/scripts/agent.py` (`Curve` namespace),

together with a model, written from the specification, of the response-shape
normalizer `extract_text` whose implementation file is not part of the
source tree (only its unit tests are).

JSON values are modelled by the inductive type `Json` below; Python dicts
decoded from JSON become association lists with string keys.  Backends and
the HTTP transport are modelled by explicit function parameters mapping a
request to the decoded response (or to the error raised).
-/

/-- JSON values as decoded by `json.loads`.  Numbers are modelled as
integers; no claim under verification depends on non-integral numbers.
Objects are association lists in insertion order (Python dicts preserve
insertion order and JSON objects have string keys). -/
inductive Json where
  | null : Json
  | bool : Bool → Json
  | num : Int → Json
  | str : String → Json
  | arr : List Json → Json
  | obj : List (String × Json) → Json
deriving Inhabited

namespace Json

/-- Python `d.get(k)` on a decoded JSON object: first binding wins
(keys of a decoded object are unique anyway). -/
def objGet : Json → String → Option Json
  | .obj fields, k => fields.lookup k
  | _, _ => none

/-- Python `d.get(k, default)`. -/
def objGetD (j : Json) (k : String) (d : Json) : Json :=
  (j.objGet k).getD d

/-- Python `k in d` for a decoded JSON object. -/
def hasKey (j : Json) (k : String) : Bool :=
  (j.objGet k).isSome

/-- Python `isinstance(x, dict)` for a decoded JSON value. -/
def isDict : Json → Bool
  | .obj _ => true
  | _ => false

/-- Python truthiness `bool(x)` of a decoded JSON value (with `bool(None)`
for a missing value). -/
def truthy : Json → Bool
  | .null => false
  | .bool b => b
  | .num n => !(n == 0)
  | .str s => !(s == "")
  | .arr l => !l.isEmpty
  | .obj l => !l.isEmpty

end Json

/-- Python truthiness of an `Optional[str]`: `None` and `""` are falsy. -/
def strTruthy : Option String → Bool
  | none => false
  | some s => !(s == "")

/-- Python `a or b` on `Optional[str]` values: `a` when truthy, else `b`. -/
def pyOr (a b : Option String) : Option String :=
  if strTruthy a then a else b

/-- Substring test `needle in hay` on Python strings, via character lists. -/
def containsSub (hay needle : String) : Bool :=
  go needle.toList hay.toList
where
  /-- Scan every suffix of the haystack for the needle as a prefix. -/
  go (n : List Char) : List Char → Bool
    | [] => n.isEmpty
    | c :: cs => n.isPrefixOf (c :: cs) || go n cs

/-- Python `str.strip()`: drop whitespace at both ends.  Written over the
character list so that it evaluates by kernel reduction. -/
def pyStrip (s : String) : String :=
  ⟨((s.toList.dropWhile Char.isWhitespace).reverse.dropWhile Char.isWhitespace).reverse⟩

/-- Python `str.lower()` (the inputs under verification are ASCII). -/
def pyLower (s : String) : String :=
  ⟨s.toList.map Char.toLower⟩

/-- Python `str.upper()` (the inputs under verification are ASCII). -/
def pyUpper (s : String) : String :=
  ⟨s.toList.map Char.toUpper⟩

/-- Python `s.split(',')` on character lists: every comma separates, and the
empty string splits to `[""]`. -/
def pySplitCommaGo : List Char → List Char → List String
  | [], acc => [⟨acc.reverse⟩]
  | c :: cs, acc =>
      if c == ',' then (⟨acc.reverse⟩ : String) :: pySplitCommaGo cs []
      else pySplitCommaGo cs (c :: acc)

/-- Python `s.split(',')`. -/
def pySplitComma (s : String) : List String :=
  pySplitCommaGo s.toList []

/-- Python `a < b` on strings: code-point lexicographic order, written over
character lists so that it evaluates by kernel reduction. -/
def charListLt : List Char → List Char → Bool
  | [], [] => false
  | [], _ :: _ => true
  | _ :: _, [] => false
  | a :: as, b :: bs =>
      if a.toNat < b.toNat then true
      else if b.toNat < a.toNat then false
      else charListLt as bs

/-- Python `a < b` on strings. -/
def pyStrLt (a b : String) : Bool :=
  charListLt a.toList b.toList

namespace Coinbase

/-- State established by `SerenClient.__init__`
(src/coinbase/grid-trader/scripts/seren_client.py, lines 23-66); only the
fields the verified claims read are retained. -/
structure SerenClient where
  cb_access_key : Option String
  cb_secret : Option String
  cb_passphrase : Option String
  publisher_authenticated : Bool
  auth_mode : String
deriving Repr, DecidableEq

/-- Embedding of `SerenClient.__init__`: auth-mode resolution and the
construction-time credential check.  A raised `ValueError` becomes
`Except.error` carrying the message. -/
def SerenClient.init (cb_access_key cb_secret cb_passphrase : Option String)
    (publisher_authenticated : Option Bool) : Except String SerenClient :=
  let has_direct_credentials :=
    strTruthy cb_access_key && strTruthy cb_secret && strTruthy cb_passphrase
  let pa := match publisher_authenticated with
    | none => !has_direct_credentials
    | some b => b
  if !pa && !has_direct_credentials then
    .error ("Legacy Coinbase header mode requires CB_ACCESS_KEY, " ++
      "CB_ACCESS_SECRET, and CB_ACCESS_PASSPHRASE")
  else
    .ok { cb_access_key, cb_secret, cb_passphrase,
          publisher_authenticated := pa,
          auth_mode := if pa then "publisher_authenticated"
                       else "direct_coinbase_headers" }

end Coinbase

namespace Polymarket

/-- State established by `PolymarketClient.__init__`
(src/polymarket/bot/scripts/polymarket_client.py, lines 20-75); only the
fields the verified claims read are retained. -/
structure PolymarketClient where
  poly_api_key : Option String
  poly_passphrase : Option String
  poly_secret : Option String
  poly_address : Option String
  desktop_publisher_auth : Bool
  auth_mode : String
  trading_publishers : List String
deriving Repr, DecidableEq

/-- Embedding of `PolymarketClient.__init__`.  The `env_*` parameters model
the `os.getenv` fallbacks and `publishers_env` models
`os.getenv('POLYMARKET_TRADING_PUBLISHERS', '')`; a raised `ValueError`
becomes `Except.error` carrying the message. -/
def PolymarketClient.init
    (poly_api_key poly_passphrase poly_secret poly_address : Option String)
    (env_api_key env_passphrase env_secret env_address : Option String)
    (desktop_publisher_auth : Option Bool)
    (publishers_env : String) : Except String PolymarketClient :=
  let key := pyOr poly_api_key env_api_key
  let pass := pyOr poly_passphrase env_passphrase
  let sec := pyOr poly_secret env_secret
  let addr := pyOr poly_address env_address
  let has_legacy_credentials :=
    strTruthy key && strTruthy pass && strTruthy addr
  let desktop := match desktop_publisher_auth with
    | none => !has_legacy_credentials
    | some b => b
  if !desktop && !has_legacy_credentials then
    .error "Polymarket credentials required: POLY_API_KEY, POLY_PASSPHRASE, POLY_ADDRESS"
  else
    let stripped := pyStrip publishers_env
    let publishers :=
      if !(stripped == "") then
        (pySplitComma stripped).map pyStrip |>.filter (fun s => !(s == ""))
      else
        ["polymarket-trading", "polymarket-trading-serenai"]
    .ok { poly_api_key := key, poly_passphrase := pass,
          poly_secret := sec, poly_address := addr,
          desktop_publisher_auth := desktop,
          auth_mode := if desktop then "desktop_publisher_auth"
                       else "direct_polymarket_headers",
          trading_publishers := publishers }

end Polymarket

section ClaimC3

/-- The construction-time error message of the Coinbase client. -/
def cbMissingCredsMsg : String :=
  "Legacy Coinbase header mode requires CB_ACCESS_KEY, " ++
    "CB_ACCESS_SECRET, and CB_ACCESS_PASSPHRASE"

/-- The construction-time error message of the Polymarket client. -/
def pmMissingCredsMsg : String :=
  "Polymarket credentials required: POLY_API_KEY, POLY_PASSPHRASE, POLY_ADDRESS"

/-- Claim C3: auth-mode resolution at client construction is a pure
deterministic function of the inputs.  An explicit mode flag wins; with the
flag unset, the mode is direct-headers iff all of the client's required
direct credentials are present (key/secret/passphrase for Coinbase,
key/passphrase/address for Polymarket) and platform-authenticated otherwise;
forcing direct-header mode while a required credential is missing raises at
construction time.  Stated for both clients. -/
theorem authMode_resolution
    (k s p : Option String)
    (a b c d ea eb ec ed : Option String) (env : String) :
    (Coinbase.SerenClient.init k s p (some true) =
        .ok ⟨k, s, p, true, "publisher_authenticated"⟩) ∧
    ((strTruthy k && strTruthy s && strTruthy p) = true →
      Coinbase.SerenClient.init k s p (some false) =
        .ok ⟨k, s, p, false, "direct_coinbase_headers"⟩) ∧
    ((strTruthy k && strTruthy s && strTruthy p) = false →
      Coinbase.SerenClient.init k s p (some false) = .error cbMissingCredsMsg) ∧
    (Coinbase.SerenClient.init k s p none =
        .ok ⟨k, s, p, !(strTruthy k && strTruthy s && strTruthy p),
          if (strTruthy k && strTruthy s && strTruthy p) then
            "direct_coinbase_headers" else "publisher_authenticated"⟩) ∧
    ((Polymarket.PolymarketClient.init a b c d ea eb ec ed (some true) env).map
        (fun r => (r.desktop_publisher_auth, r.auth_mode)) =
      .ok (true, "desktop_publisher_auth")) ∧
    ((strTruthy (pyOr a ea) && strTruthy (pyOr b eb) && strTruthy (pyOr d ed)) = true →
      (Polymarket.PolymarketClient.init a b c d ea eb ec ed (some false) env).map
          (fun r => (r.desktop_publisher_auth, r.auth_mode)) =
        .ok (false, "direct_polymarket_headers")) ∧
    ((strTruthy (pyOr a ea) && strTruthy (pyOr b eb) && strTruthy (pyOr d ed)) = false →
      Polymarket.PolymarketClient.init a b c d ea eb ec ed (some false) env =
        .error pmMissingCredsMsg) ∧
    ((Polymarket.PolymarketClient.init a b c d ea eb ec ed none env).map
        (fun r => r.desktop_publisher_auth) =
      .ok (!(strTruthy (pyOr a ea) && strTruthy (pyOr b eb) && strTruthy (pyOr d ed)))) := by
  refine ⟨rfl, ?_, ?_, ?_, ?_, ?_, ?_, ?_⟩
  · intro h
    simp [Coinbase.SerenClient.init, h, cbMissingCredsMsg]
  · intro h
    simp [Coinbase.SerenClient.init, h, cbMissingCredsMsg]
  · cases h : (strTruthy k && strTruthy s && strTruthy p) <;>
      simp [Coinbase.SerenClient.init, h]
  · rfl
  · intro h
    simp [Polymarket.PolymarketClient.init, h, Except.map]
  · intro h
    simp [Polymarket.PolymarketClient.init, h, pmMissingCredsMsg]
  · cases h : (strTruthy (pyOr a ea) && strTruthy (pyOr b eb) && strTruthy (pyOr d ed)) <;>
      simp [Polymarket.PolymarketClient.init, h, Except.map]

/-- Witness for `authMode_resolution` at concrete credentials: with all three
Coinbase credentials present and the flag unset, construction picks direct
headers; with the Polymarket address missing and the flag forced to direct
mode, construction fails. -/
theorem authMode_resolution_witness :
    ((strTruthy (some "k") && strTruthy (some "s") && strTruthy (some "p")) = true ∧
      Coinbase.SerenClient.init (some "k") (some "s") (some "p") (some false) =
        .ok ⟨some "k", some "s", some "p", false, "direct_coinbase_headers"⟩) ∧
    ((strTruthy (some "k") && strTruthy (some "pp") && strTruthy (none : Option String)) = false ∧
      Polymarket.PolymarketClient.init (some "k") (some "pp") none none
          none none none none (some false) "" = .error pmMissingCredsMsg) := by
  refine ⟨⟨by decide, ?_⟩, ⟨by decide, ?_⟩⟩
  · exact (authMode_resolution (some "k") (some "s") (some "p")
      none none none none none none none none "").2.1 (by decide)
  · exact (authMode_resolution none none none
      (some "k") (some "pp") none none none none none none "").2.2.2.2.2.2.1 (by decide)

end ClaimC3

namespace Coinbase

/-- Errors raised by the response-handling tail of `SerenClient._call`
(src/coinbase/grid-trader/scripts/seren_client.py, lines 135-143): the
hand-built `requests.HTTPError` with a fixed message, or the
`requests.HTTPError` produced by `response.raise_for_status()`, which
carries the HTTP status. -/
inductive CallError where
  | authHint : String → CallError
  | httpStatus : Nat → CallError
deriving Repr, DecidableEq

/-- The fixed operator-remediation message of the auth error raised in
publisher-authenticated mode on a 401/403. -/
def cbAuthHintMsg : String :=
  "Coinbase publisher authentication failed in desktop keychain mode. " ++
    "Configure the Coinbase publisher API key in Seren Desktop Settings " ++
    "and ensure the publisher is enabled."

/-- Embedding of the response-handling tail of `SerenClient._call`
(lines 135-149): status classification followed by envelope unwrapping of
the decoded JSON body `data`. -/
def SerenClient.handleResponse (publisher_authenticated : Bool)
    (status : Nat) (data : Json) : Except CallError Json :=
  if 400 ≤ status then
    if publisher_authenticated && (status == 401 || status == 403) then
      .error (.authHint cbAuthHintMsg)
    else
      .error (.httpStatus status)
  else
    match data.objGet "body" with
    | some v => .ok v
    | none => .ok data

end Coinbase

namespace Curve

/-- Embedding of the decode tail of `SerenPublisherClient._request`
(src/curve/curve-gauge-yield-trader/scripts/agent.py, lines 124-130).
`parsed` is `none` when `json.loads` raises on `raw`; a raised
`PublisherError` becomes `Except.error` carrying the message. -/
def SerenPublisherClient.handleBody (normalized_path raw : String)
    (parsed : Option Json) : Except String Json :=
  match parsed with
  | none => .error ("Invalid JSON from " ++ normalized_path ++ ": " ++ raw.take 200)
  | some p =>
      if p.isDict then .ok p
      else .error ("Response from " ++ normalized_path ++ " was not an object")

end Curve

section ClaimC4

/-- Claim C4: on HTTP status 401/403 in platform-authenticated mode the
Coinbase client raises the fixed remediation-hint auth error — the same
error for every remote body, so the raw remote error body is never
included — and on every other status >= 400, in either mode, it raises the
generic error carrying the HTTP status. -/
theorem gateway_error_classification
    (publisher_authenticated : Bool) (status : Nat) (data : Json) :
    (400 ≤ status → (status = 401 ∨ status = 403) →
      Coinbase.SerenClient.handleResponse true status data =
        .error (.authHint Coinbase.cbAuthHintMsg)) ∧
    (400 ≤ status → ¬(publisher_authenticated = true ∧ (status = 401 ∨ status = 403)) →
      Coinbase.SerenClient.handleResponse publisher_authenticated status data =
        .error (.httpStatus status)) := by
  constructor
  · intro hge hs
    rcases hs with h | h <;> subst h <;>
      simp [Coinbase.SerenClient.handleResponse]
  · intro hge hns
    have hcond : (publisher_authenticated && (status == 401 || status == 403)) = false := by
      rcases publisher_authenticated with _ | _
      · rfl
      · simp only [Bool.true_and]
        have : ¬(status = 401 ∨ status = 403) := fun h => hns ⟨rfl, h⟩
        simp [not_or] at this
        simp [this.1, this.2]
    simp [Coinbase.SerenClient.handleResponse, hge, hcond]

/-- Witness for `gateway_error_classification`: a 403 in
publisher-authenticated mode yields the fixed auth hint; a 500 in
direct-header mode yields the generic status error. -/
theorem gateway_error_classification_witness :
    (400 ≤ 403 ∧ Coinbase.SerenClient.handleResponse true 403 (Json.str "secret stuff") =
      .error (.authHint Coinbase.cbAuthHintMsg)) ∧
    (400 ≤ 500 ∧ Coinbase.SerenClient.handleResponse false 500 Json.null =
      .error (.httpStatus 500)) :=
  ⟨⟨by decide, (gateway_error_classification true 403 (Json.str "secret stuff")).1
      (by decide) (Or.inr rfl)⟩,
   ⟨by decide, (gateway_error_classification false 500 Json.null).2
      (by decide) (by simp)⟩⟩

end ClaimC4

section ClaimC2

/-- Written from the specification (§4.3 envelope unwrapping): if the decoded
body is an object containing a `body` key, the nested value; otherwise the
decoded body unchanged.  Comparator for the refinement statements below. -/
def specUnwrapEnvelope (data : Json) : Json :=
  match data with
  | .obj fields =>
      match fields.lookup "body" with
      | some v => v
      | none => data
  | _ => data

/-- Counterexample to claim C2: the claim asserts that envelope unwrapping
holds for every transport client in the system, but the curve trader's
`SerenPublisherClient._request` returns a decoded object that contains a
`body` key unchanged — the caller receives the whole envelope, not the
nested value. -/
theorem curve_transport_no_unwrap_counterexample :
    Curve.SerenPublisherClient.handleBody "/publishers/x/health" "raw"
        (some (Json.obj [("body", Json.null)])) =
      .ok (Json.obj [("body", Json.null)]) ∧
    specUnwrapEnvelope (Json.obj [("body", Json.null)]) = Json.null ∧
    Json.obj [("body", Json.null)] ≠ Json.null := by
  refine ⟨rfl, rfl, ?_⟩
  intro h
  exact Json.noConfusion h

/-- Claim C2 as amended: envelope unwrapping is unconditional in the
Coinbase grid-trader client — every successful `_call` returns exactly the
spec's unwrapping of the decoded body — while the curve trader's
`SerenPublisherClient._request` returns the decoded object unchanged
(rejecting non-object bodies) and never unwraps `body`. -/
theorem envelope_unwrapping
    (publisher_authenticated : Bool) (status : Nat) (data : Json)
    (path raw : String) (p : Json) :
    (status < 400 →
      Coinbase.SerenClient.handleResponse publisher_authenticated status data =
        .ok (specUnwrapEnvelope data)) ∧
    (p.isDict = true →
      Curve.SerenPublisherClient.handleBody path raw (some p) = .ok p) := by
  constructor
  · intro hlt
    have hnot : ¬(400 ≤ status) := by omega
    cases data with
    | obj fields =>
        simp only [Coinbase.SerenClient.handleResponse, hnot, if_false,
          Json.objGet, specUnwrapEnvelope]
        cases fields.lookup "body" <;> rfl
    | null => simp [Coinbase.SerenClient.handleResponse, hnot, Json.objGet, specUnwrapEnvelope]
    | bool b => simp [Coinbase.SerenClient.handleResponse, hnot, Json.objGet, specUnwrapEnvelope]
    | num n => simp [Coinbase.SerenClient.handleResponse, hnot, Json.objGet, specUnwrapEnvelope]
    | str s => simp [Coinbase.SerenClient.handleResponse, hnot, Json.objGet, specUnwrapEnvelope]
    | arr l => simp [Coinbase.SerenClient.handleResponse, hnot, Json.objGet, specUnwrapEnvelope]
  · intro hdict
    simp [Curve.SerenPublisherClient.handleBody, hdict]

/-- Witness for `envelope_unwrapping`: a 200 response whose decoded body is
`{"body": 7}` is unwrapped to `7` by the Coinbase client, while the curve
client returns the same object unchanged. -/
theorem envelope_unwrapping_witness :
    ((200 : Nat) < 400 ∧
      Coinbase.SerenClient.handleResponse true 200 (Json.obj [("body", Json.num 7)]) =
        .ok (specUnwrapEnvelope (Json.obj [("body", Json.num 7)]))) ∧
    ((Json.obj [("body", Json.num 7)]).isDict = true ∧
      Curve.SerenPublisherClient.handleBody "/p" "r" (some (Json.obj [("body", Json.num 7)])) =
        .ok (Json.obj [("body", Json.num 7)])) :=
  ⟨⟨by decide,
    (envelope_unwrapping true 200 (Json.obj [("body", Json.num 7)]) "/p" "r" Json.null).1
      (by decide)⟩,
   ⟨rfl,
    (envelope_unwrapping true 200 Json.null "/p" "r" (Json.obj [("body", Json.num 7)])).2 rfl⟩⟩

end ClaimC2

namespace Polymarket

/-- The fixed message of the helpful error raised by `_call_trading` when the
final attempt fails with a 401/403 in desktop publisher-auth mode
(src/polymarket/bot/scripts/polymarket_client.py, lines 113-118). -/
def pmDesktopAuthFailedMsg : String :=
  "Polymarket desktop publisher authentication failed. " ++
    "Configure Polymarket publisher credentials in Seren Desktop " ++
    "and ensure the publisher is enabled."

/-- Embedding of the loop of `PolymarketClient._call_trading` (lines 87-123).
`callPub` models `seren.call_publisher` for the fixed method/path/headers/body
of one invocation, taking the publisher slug to the decoded result or to the
`str` of the exception raised.  The second argument threads `last_error`;
`idx < len(self.trading_publishers) - 1` is `rest ≠ []`. -/
def callTradingGo (desktop_publisher_auth : Bool)
    (callPub : String → Except String Json) :
    List String → Option String → Except String Json
  | [], last =>
      match last with
      | some e => .error e
      | none => .error "No Polymarket trading publisher configured"
  | publisher :: rest, _last =>
      match callPub publisher with
      | .ok v => .ok v
      | .error message =>
          if containsSub message "404" && !rest.isEmpty then
            callTradingGo desktop_publisher_auth callPub rest (some message)
          else if (containsSub message "401" || containsSub message "403") &&
              !rest.isEmpty then
            callTradingGo desktop_publisher_auth callPub rest (some message)
          else if desktop_publisher_auth &&
              (containsSub message "401" || containsSub message "403") then
            .error pmDesktopAuthFailedMsg
          else
            .error message

/-- `PolymarketClient._call_trading` on a constructed client. -/
def PolymarketClient.callTrading (c : PolymarketClient)
    (callPub : String → Except String Json) : Except String Json :=
  callTradingGo c.desktop_publisher_auth callPub c.trading_publishers none

end Polymarket

section ClaimC1

/-- Backend behaviour refuting claim C1: the sidecar slug answers 401, the
legacy slug succeeds. -/
def c1Backend : String → Except String Json := fun pub =>
  if pub == "polymarket-trading" then
    .error "Publisher call failed: 401 - unauthorized"
  else
    .ok (Json.obj [("data", Json.arr [])])

/-- Counterexample to claim C1: with direct-header mode (client constructed
with all Polymarket credentials, auth mode `direct_polymarket_headers`) a 401
from the first trading publisher does NOT propagate as an auth error — the
code falls back to the second publisher and returns its successful result,
contradicting the claim that in direct-header mode a 401/403 never triggers
fallback. -/
theorem trading_fallback_direct_401_counterexample :
    (Polymarket.PolymarketClient.init (some "k") (some "p") (some "s") (some "0xabc")
        none none none none none "").map
      (fun client => (client.auth_mode, client.callTrading c1Backend)) =
    .ok ("direct_polymarket_headers", .ok (Json.obj [("data", Json.arr [])])) := by
  rfl

/-- Claim C1 as amended: for trading publishers `[A, B]`, a successful call
to `A` is returned directly; a 404-class error from `A` retries against `B`;
an error carrying none of the 404/401/403 markers (e.g. a 500 or a generic
network failure) propagates immediately without consulting `B`; a 401/403
from `A` falls back to `B` in BOTH auth modes; and when the last publisher
fails with a 401/403, desktop publisher-auth mode raises the fixed
remediation-hint error while direct-header mode propagates the original
error. -/
theorem trading_fallback_policy
    (desktop : Bool) (A B : String) (f : String → Except String Json) :
    (∀ v, f A = .ok v →
      Polymarket.callTradingGo desktop f [A, B] none = .ok v) ∧
    (∀ e, f A = .error e → containsSub e "404" = true →
      Polymarket.callTradingGo desktop f [A, B] none =
        Polymarket.callTradingGo desktop f [B] (some e)) ∧
    (∀ e, f A = .error e → containsSub e "404" = false →
        containsSub e "401" = false → containsSub e "403" = false →
      Polymarket.callTradingGo desktop f [A, B] none = .error e) ∧
    (∀ e, f A = .error e → (containsSub e "401" || containsSub e "403") = true →
      Polymarket.callTradingGo desktop f [A, B] none =
        Polymarket.callTradingGo desktop f [B] (some e)) ∧
    (∀ e last, f B = .error e → (containsSub e "401" || containsSub e "403") = true →
      Polymarket.callTradingGo desktop f [B] last =
        if desktop then .error Polymarket.pmDesktopAuthFailedMsg else .error e) := by
  refine ⟨?_, ?_, ?_, ?_, ?_⟩
  · intro v hv
    simp [Polymarket.callTradingGo, hv]
  · intro e he h404
    simp [Polymarket.callTradingGo, he, h404]
  · intro e he h404 h401 h403
    simp [Polymarket.callTradingGo, he, h404, h401, h403]
  · intro e he h40x
    cases h404 : containsSub e "404" <;>
      simp [Polymarket.callTradingGo, he, h404, h40x]
  · intro e last he h40x
    have h1 : (containsSub e "404" && !([] : List String).isEmpty) = false := by
      simp
    cases desktop <;>
      simp [Polymarket.callTradingGo, he, h40x, h1]

/-- Witness for `trading_fallback_policy`: in direct-header mode a 401 from
the first default publisher slips to the second, and in desktop mode a 401 on
the last publisher becomes the fixed remediation error. -/
theorem trading_fallback_policy_witness :
    (c1Backend "polymarket-trading" = .error "Publisher call failed: 401 - unauthorized" ∧
      (containsSub "Publisher call failed: 401 - unauthorized" "401" ||
        containsSub "Publisher call failed: 401 - unauthorized" "403") = true ∧
      Polymarket.callTradingGo false c1Backend
          ["polymarket-trading", "polymarket-trading-serenai"] none =
        Polymarket.callTradingGo false c1Backend ["polymarket-trading-serenai"]
          (some "Publisher call failed: 401 - unauthorized")) ∧
    (Polymarket.callTradingGo true c1Backend ["polymarket-trading"] none =
      .error Polymarket.pmDesktopAuthFailedMsg) := by
  refine ⟨⟨rfl, by decide, ?_⟩, ?_⟩
  · exact (trading_fallback_policy false "polymarket-trading"
      "polymarket-trading-serenai" c1Backend).2.2.2.1
      "Publisher call failed: 401 - unauthorized" rfl (by decide)
  · have h := (trading_fallback_policy true "unused"
      "polymarket-trading" c1Backend).2.2.2.2
      "Publisher call failed: 401 - unauthorized" none rfl (by decide)
    simpa using h

end ClaimC1

/-- A single-quote character, used when embedded error messages quote a
name. -/
def quoteCh : String := ⟨[Char.ofNat 39]⟩

/-- Python `sep.join(parts)`. -/
def pyJoin (sep : String) : List String → String
  | [] => ""
  | [x] => x
  | x :: rest => x ++ sep ++ pyJoin sep rest

/-- Insertion step of the sorts below. -/
def insertSortedBy {α : Type} (lt : α → α → Bool) (x : α) : List α → List α
  | [] => [x]
  | y :: ys => if lt x y then x :: y :: ys else y :: insertSortedBy lt x ys

/-- Insertion sort by a strict comparator (Python `sorted`). -/
def sortBy {α : Type} (lt : α → α → Bool) : List α → List α
  | [] => []
  | x :: xs => insertSortedBy lt x (sortBy lt xs)

/-- Python `sorted` on strings, in code-point order. -/
def sortStrings (l : List String) : List String :=
  sortBy pyStrLt l

namespace Normalizer

/-- The fixed error format of the response-shape normalizer: the sorted
top-level keys rendered as a Python list literal. -/
def unsupportedShapeMsg (keys : List String) : String :=
  "Unsupported model response shape: keys=[" ++
    String.intercalate ", " ((sortStrings keys).map (fun k => quoteCh ++ k ++ quoteCh)) ++ "]"

/-- First content block whose `type` is `"text"`, yielding its `text`
string: the first-text-block rule shared by shapes 3 and 4. -/
def firstTextBlock : List Json → Option String
  | [] => none
  | block :: rest =>
      match block.objGet "type", block.objGet "text" with
      | some (.str "text"), some (.str t) => some t
      | _, _ => firstTextBlock rest

/-- A `message.content` value: either a plain string (shape 2) or a
content-block array scanned for the first text block (shape 3). -/
def contentText : Json → Option String
  | .str s => some s
  | .arr blocks => firstTextBlock blocks
  | _ => none

/-- Lemma for termination of the body-unwrap recursion: a value found by
`lookup` is structurally smaller than the object holding it. -/
theorem sizeOf_lookup_lt (k : String) :
    ∀ (fields : List (String × Json)) (v : Json),
      fields.lookup k = some v → sizeOf v < 1 + sizeOf fields := by
  intro fields
  induction fields with
  | nil => intro v h; exact absurd h (by simp [List.lookup])
  | cons kv rest ih =>
      intro v h
      obtain ⟨a, b⟩ := kv
      rw [List.lookup] at h
      by_cases hk : (k == a) = true
      · rw [hk] at h
        simp only [Option.some.injEq] at h
        subst h
        simp only [List.cons.sizeOf_spec, Prod.mk.sizeOf_spec]
        omega
      · rw [Bool.not_eq_true] at hk
        rw [hk] at h
        have := ih v h
        simp only [List.cons.sizeOf_spec, Prod.mk.sizeOf_spec]
        omega

/-- Modelled from the spec: the response-shape normalizer
`SerenClient._extract_text` of the Polymarket bot, whose implementation file
`seren_client.py` is not part of the source tree (only its unit tests are).
Per §4.4 of the spec, the recognized shapes are tried in precedence order:
a `body` wrapper is unwrapped and the normalizer retried on the nested
value; then OpenAI-style `choices[0].message.content` as a string or as a
content-block array (first `type == "text"` block wins); then
Responses-API-style `output[0].content` block arrays; then a plain
top-level `text` string; everything else — error envelopes included —
fails with the fixed message listing the sorted top-level keys. -/
def extract_text : Json → Except String String
  | .obj fields =>
      match hbody : fields.lookup "body" with
      | some inner => extract_text inner
      | none =>
          let viaChoices : Option String :=
            match fields.lookup "choices" with
            | some (.arr (c0 :: _)) =>
                ((c0.objGet "message").bind (fun m => m.objGet "content")).bind contentText
            | _ => none
          let viaOutput : Option String :=
            match fields.lookup "output" with
            | some (.arr (o0 :: _)) =>
                match o0.objGet "content" with
                | some (.arr blocks) => firstTextBlock blocks
                | _ => none
            | _ => none
          let viaText : Option String :=
            match fields.lookup "text" with
            | some (.str s) => some s
            | _ => none
          match viaChoices <|> viaOutput <|> viaText with
          | some s => .ok s
          | none => .error (unsupportedShapeMsg (fields.map Prod.fst))
  | _ => .error (unsupportedShapeMsg [])
termination_by j => sizeOf j
decreasing_by
  rename_i fields
  have := sizeOf_lookup_lt "body" fields inner hbody
  simp only [Json.obj.sizeOf_spec]
  omega

end Normalizer

section ClaimC10

/-- Claim C10: for every value `X`, the normalizer applied to the wrapper
`{body: X}` yields exactly the result of applying it directly to `X` — the
same string on success and the same typed error on failure.  (Stated for
all `X`, which covers every recognized shape.) -/
theorem extract_text_body_roundtrip (X : Json) :
    Normalizer.extract_text (Json.obj [("body", X)]) = Normalizer.extract_text X := by
  conv_lhs => rw [Normalizer.extract_text.eq_def]
  simp [List.lookup]

end ClaimC10

namespace Crypto

/-- Big-endian byte list of `n`, `k` bytes wide. -/
def bytesBE : Nat → Nat → List Nat
  | 0, _ => []
  | k + 1, n => bytesBE k (n / 256) ++ [n % 256]

/-- The standard base64 alphabet. -/
def b64Alphabet : List Char :=
  "ABCDEFGHIJKLMNOPQRSTUVWXYZabcdefghijklmnopqrstuvwxyz0123456789+/".toList

/-- Index scan over the base64 alphabet. -/
def b64IndexGo : List Char → Nat → Char → Option Nat
  | [], _, _ => none
  | a :: rest, i, c => if a == c then some i else b64IndexGo rest (i + 1) c

/-- 6-bit value of a base64 character, `none` outside the alphabet. -/
def b64Index (c : Char) : Option Nat :=
  b64IndexGo b64Alphabet 0 c

/-- Base64 character of a 6-bit value. -/
def b64CharOf (i : Nat) : Char :=
  b64Alphabet.getD i 'A'

/-- `base64.b64encode` on a byte list. -/
def b64encode : List Nat → List Char
  | b0 :: b1 :: b2 :: rest =>
      b64CharOf (b0 / 4) :: b64CharOf (b0 % 4 * 16 + b1 / 16) ::
        b64CharOf (b1 % 16 * 4 + b2 / 64) :: b64CharOf (b2 % 64) :: b64encode rest
  | [b0, b1] =>
      [b64CharOf (b0 / 4), b64CharOf (b0 % 4 * 16 + b1 / 16),
        b64CharOf (b1 % 16 * 4), '=']
  | [b0] =>
      [b64CharOf (b0 / 4), b64CharOf (b0 % 4 * 16), '=', '=']
  | [] => []

/-- `base64.b64encode` rendered as a string. -/
def b64encodeStr (bs : List Nat) : String :=
  ⟨b64encode bs⟩

/-- Decoding of 4-character base64 groups, with `=` padding admitted only at
the very end; a malformed tail is `binascii.Error` (`none`). -/
def b64DecodeGroups : List Char → Option (List Nat)
  | [] => some []
  | c0 :: c1 :: c2 :: c3 :: rest =>
      match b64Index c0, b64Index c1 with
      | some v0, some v1 =>
          if c2 == '=' then
            if c3 == '=' && rest.isEmpty then some [v0 * 4 + v1 / 16] else none
          else
            match b64Index c2 with
            | some v2 =>
                if c3 == '=' then
                  if rest.isEmpty then
                    some [v0 * 4 + v1 / 16, v1 % 16 * 16 + v2 / 4]
                  else none
                else
                  match b64Index c3 with
                  | some v3 =>
                      (b64DecodeGroups rest).map
                        (fun tail => (v0 * 4 + v1 / 16) :: (v1 % 16 * 16 + v2 / 4) ::
                          (v2 % 4 * 64 + v3) :: tail)
                  | none => none
            | none => none
      | _, _ => none
  | _ => none

/-- Python `base64.b64decode` in its default lax mode: characters outside
the alphabet and the padding symbol are discarded first, then the remainder
must fall into 4-character groups; failure models `binascii.Error`. -/
def b64decode (s : String) : Option (List Nat) :=
  b64DecodeGroups (s.toList.filter (fun c => (b64Index c).isSome || c == '='))

/-- 2^32, the word modulus of SHA-256. -/
def M32 : Nat := 4294967296

/-- Right rotation of a 32-bit word by `n` places, written with division
and remainder: the low `n` bits wrap around to the top. -/
def rotRight32 (n x : Nat) : Nat :=
  x / 2 ^ n + x % 2 ^ n * 2 ^ (32 - n)

/-- SHA-256 choose function; bitwise complement is xor against the
all-ones 32-bit word. -/
def chooseFn (x y z : Nat) : Nat := (x &&& y) ^^^ ((x ^^^ (M32 - 1)) &&& z)

/-- SHA-256 majority function. -/
def majority (x y z : Nat) : Nat := (x &&& y) ^^^ (x &&& z) ^^^ (y &&& z)

/-- SHA-256 upper-case sigma 0 (compression mixing of register `a`). -/
def mixA (x : Nat) : Nat :=
  rotRight32 2 x ^^^ rotRight32 13 x ^^^ rotRight32 22 x

/-- SHA-256 upper-case sigma 1 (compression mixing of register `e`). -/
def mixE (x : Nat) : Nat :=
  rotRight32 6 x ^^^ rotRight32 11 x ^^^ rotRight32 25 x

/-- SHA-256 lower-case sigma 0 (schedule mixing). -/
def mixW0 (x : Nat) : Nat :=
  rotRight32 7 x ^^^ rotRight32 18 x ^^^ x / 2 ^ 3

/-- SHA-256 lower-case sigma 1 (schedule mixing). -/
def mixW1 (x : Nat) : Nat :=
  rotRight32 17 x ^^^ rotRight32 19 x ^^^ x / 2 ^ 10

/-- The 64 SHA-256 round constants of FIPS 180-4 (the fractional cube-root
words of the first sixty-four primes), in decimal. -/
def K : List Nat :=
  [1116352408, 1899447441, 3049323471, 3921009573, 961987163, 1508970993,
    2453635748, 2870763221, 3624381080, 310598401, 607225278, 1426881987,
    1925078388, 2162078206, 2614888103, 3248222580, 3835390401, 4022224774,
    264347078, 604807628, 770255983, 1249150122, 1555081692, 1996064986,
    2554220882, 2821834349, 2952996808, 3210313671, 3336571891, 3584528711,
    113926993, 338241895, 666307205, 773529912, 1294757372, 1396182291,
    1695183700, 1986661051, 2177026350, 2456956037, 2730485921, 2820302411,
    3259730800, 3345764771, 3516065817, 3600352804, 4094571909, 275423344,
    430227734, 506948616, 659060556, 883997877, 958139571, 1322822218,
    1537002063, 1747873779, 1955562222, 2024104815, 2227730452, 2361852424,
    2428436474, 2756734187, 3204031479, 3329325298]

/-- The eight SHA-256 initial hash words of FIPS 180-4 (the fractional
square-root words of the first eight primes), in decimal. -/
def H0 : List Nat :=
  [1779033703, 3144134277, 1013904242, 2773480762, 1359893119, 2600822924,
    528734635, 1541459225]

/-- 32-bit big-endian words of a byte list. -/
def toWords : List Nat → List Nat
  | b0 :: b1 :: b2 :: b3 :: rest =>
      (b0 * 16777216 + b1 * 65536 + b2 * 256 + b3) :: toWords rest
  | _ => []

/-- Message-schedule extension: append one word per fuel step. -/
def schedGo : Nat → List Nat → List Nat
  | 0, ws => ws
  | n + 1, ws =>
      let t := ws.length
      let w := (mixW1 (ws.getD (t - 2) 0) + ws.getD (t - 7) 0 +
          mixW0 (ws.getD (t - 15) 0) + ws.getD (t - 16) 0) % M32
      schedGo n (ws ++ [w])

/-- The 64-word message schedule of a 16-word block. -/
def sched (ws : List Nat) : List Nat :=
  schedGo 48 ws

/-- The eight SHA-256 working registers. -/
structure Regs where
  a : Nat
  b : Nat
  c : Nat
  d : Nat
  e : Nat
  f : Nat
  g : Nat
  h : Nat

/-- One SHA-256 compression round, fed a `(schedule word, constant)` pair. -/
def round (r : Regs) (wk : Nat × Nat) : Regs :=
  let t1 := (r.h + mixE r.e + chooseFn r.e r.f r.g + wk.2 + wk.1) % M32
  let t2 := (mixA r.a + majority r.a r.b r.c) % M32
  ⟨(t1 + t2) % M32, r.a, r.b, r.c, (r.d + t1) % M32, r.e, r.f, r.g⟩

/-- SHA-256 compression of one 64-byte block into the running hash. -/
def processBlock (h : List Nat) (block : List Nat) : List Nat :=
  let ws := sched (toWords block)
  let start : Regs := ⟨h.getD 0 0, h.getD 1 0, h.getD 2 0, h.getD 3 0,
    h.getD 4 0, h.getD 5 0, h.getD 6 0, h.getD 7 0⟩
  let r := (ws.zip K).foldl round start
  [(h.getD 0 0 + r.a) % M32, (h.getD 1 0 + r.b) % M32, (h.getD 2 0 + r.c) % M32,
    (h.getD 3 0 + r.d) % M32, (h.getD 4 0 + r.e) % M32, (h.getD 5 0 + r.f) % M32,
    (h.getD 6 0 + r.g) % M32, (h.getD 7 0 + r.h) % M32]

/-- Merkle-Damgard padding: a `0x80` byte, zeros to 56 mod 64, and the
8-byte big-endian bit length. -/
def padMessage (msg : List Nat) : List Nat :=
  msg ++ [128] ++ List.replicate ((119 - msg.length % 64) % 64) 0 ++
    bytesBE 8 (msg.length * 8)

/-- 64-byte chunks of a list; the fuel is an upper bound on the chunk count
so that the recursion is structural. -/
def chunks64Go : Nat → List Nat → List (List Nat)
  | 0, _ => []
  | _, [] => []
  | fuel + 1, l => l.take 64 :: chunks64Go fuel (l.drop 64)

/-- SHA-256 of a byte list, as a 32-byte list. -/
def sha256 (msg : List Nat) : List Nat :=
  let padded := padMessage msg
  (((chunks64Go padded.length padded).foldl processBlock H0).map (bytesBE 4)).flatten

/-- HMAC-SHA256: `hmac.new(key, msg, hashlib.sha256).digest()`. -/
def hmacSha256 (key msg : List Nat) : List Nat :=
  let key1 := if 64 < key.length then sha256 key else key
  let keyPad := key1 ++ List.replicate (64 - key1.length) 0
  sha256 ((keyPad.map (fun b => b ^^^ 92)) ++
    sha256 ((keyPad.map (fun b => b ^^^ 54)) ++ msg))

/-- UTF-8 bytes of a string (`str.encode('utf-8')`). -/
def utf8Bytes (s : String) : List Nat :=
  s.toUTF8.toList.map (fun b => b.toNat)

end Crypto

namespace Coinbase

/-- Embedding of `SerenClient._sign`
(src/coinbase/grid-trader/scripts/seren_client.py, lines 68-84).
`timestamp` models `str(time.time())`, captured once at the top of the
call; the `binascii.Error` raised by `base64.b64decode` on a malformed
secret becomes `Except.error`. -/
def SerenClient.sign (cb_secret timestamp method path body_str : String) :
    Except String (String × String) :=
  let message := timestamp ++ pyUpper method ++ path ++ body_str
  match Crypto.b64decode cb_secret with
  | none => .error "binascii.Error: Invalid base64-encoded string"
  | some secret_bytes =>
      .ok (Crypto.b64encodeStr (Crypto.hmacSha256 secret_bytes
        (Crypto.utf8Bytes message)), timestamp)

end Coinbase

section ClaimC5

/-- Written from the specification (§4.2 Request Signer): `message =
timestamp + UPPERCASE(method) + path_with_query + body_json_string`,
`signature = base64(HMAC-SHA256(base64_decode(shared_secret), message))`,
and the one captured timestamp is returned for the transmitted header.
Comparator for the refinement statement below. -/
def specSign (shared_secret timestamp method path_with_query body_json : String) :
    Option (String × String) :=
  (Crypto.b64decode shared_secret).map (fun secret =>
    (Crypto.b64encodeStr (Crypto.hmacSha256 secret
      (Crypto.utf8Bytes (timestamp ++ pyUpper method ++ path_with_query ++ body_json))),
     timestamp))

/-- Claim C5: for every method, path-with-query, body string and
base64-valid secret, the signer computes exactly
`base64(HMAC-SHA256(base64_decode(secret), timestamp ++ UPPER(method) ++
path ++ body))` — the empty body string standing for bodiless requests —
and the timestamp inside the signed message and the timestamp returned for
the transmitted header are the identical captured string; on every input
the signer agrees with the formula written from the spec. -/
theorem sign_matches_spec (secret ts method path body : String) (bs : List Nat)
    (h : Crypto.b64decode secret = some bs) :
    (Coinbase.SerenClient.sign secret ts method path body =
      .ok (Crypto.b64encodeStr (Crypto.hmacSha256 bs
        (Crypto.utf8Bytes (ts ++ pyUpper method ++ path ++ body))), ts)) ∧
    (Coinbase.SerenClient.sign secret ts method path body).toOption =
      specSign secret ts method path body := by
  constructor
  · simp [Coinbase.SerenClient.sign, h]
  · simp [Coinbase.SerenClient.sign, specSign, h, Except.toOption]

/-- Witness for `sign_matches_spec`: the base64-valid secret `"c2VjcmV0"`
(the bytes of `"secret"`), a GET of `/accounts` with no body, and one
captured timestamp string. -/
theorem sign_matches_spec_witness :
    Crypto.b64decode "c2VjcmV0" = some [115, 101, 99, 114, 101, 116] ∧
    Coinbase.SerenClient.sign "c2VjcmV0" "1700000000.123" "get" "/accounts" "" =
      .ok (Crypto.b64encodeStr (Crypto.hmacSha256 [115, 101, 99, 114, 101, 116]
        (Crypto.utf8Bytes ("1700000000.123" ++ pyUpper "get" ++ "/accounts" ++ ""))),
        "1700000000.123") :=
  ⟨by rfl,
   (sign_matches_spec "c2VjcmV0" "1700000000.123" "get" "/accounts" ""
     [115, 101, 99, 114, 101, 116] (by rfl)).1⟩

end ClaimC5

namespace Curve

/-- `SUPPORTED_CHAINS` (agent.py, lines 50-61); a Python set used only for
membership tests. -/
def SUPPORTED_CHAINS : List String :=
  ["ethereum", "arbitrum", "base", "optimism", "polygon",
   "avalanche", "bsc", "gnosis", "zksync", "scroll"]

/-- `CHAIN_DISCOVERY_TERMS` (agent.py, lines 62-73), in insertion order. -/
def CHAIN_DISCOVERY_TERMS : List (String × List String) :=
  [("ethereum", ["ethereum"]),
   ("arbitrum", ["arbitrum"]),
   ("base", ["base"]),
   ("optimism", ["optimism"]),
   ("polygon", ["polygon", "matic"]),
   ("avalanche", ["avalanche", "avax"]),
   ("bsc", ["bsc", "binance", "bnb"]),
   ("gnosis", ["gnosis", "xdai"]),
   ("zksync", ["zksync"]),
   ("scroll", ["scroll"])]

/-- Python `str(x)` on a decoded JSON value.  The scalar cases are exact;
containers are rendered schematically — no claim under verification scores
or matches a non-string slug/name/description, so only scalars reach the
functions below on meaningful inputs. -/
def pyStr : Json → String
  | .null => "None"
  | .bool true => "True"
  | .bool false => "False"
  | .num n => toString n
  | .str s => s
  | .arr _ => "[...]"
  | .obj _ => "\x7b...\x7d"

/-- A character matched by the tokenizer's `[a-z0-9]` class. -/
def isTokenChar (c : Char) : Bool :=
  ('a'.toNat ≤ c.toNat && c.toNat ≤ 'z'.toNat) ||
    ('0'.toNat ≤ c.toNat && c.toNat ≤ '9'.toNat)

/-- Maximal `[a-z0-9]` runs of a character list, the current run carried in
reverse. -/
def tokenizeGo : List Char → List Char → List String
  | [], acc => if acc.isEmpty then [] else [⟨acc.reverse⟩]
  | c :: cs, acc =>
      if isTokenChar c then tokenizeGo cs (c :: acc)
      else if acc.isEmpty then tokenizeGo cs []
      else (⟨acc.reverse⟩ : String) :: tokenizeGo cs []

/-- Embedding of `_tokenize` (agent.py, lines 352-353): case-fold, split on
runs of non-`[a-z0-9]` characters, drop empty tokens.  The Python set is
modelled as the list of runs; only membership is ever consumed. -/
def tokenize (value : String) : List String :=
  tokenizeGo (pyLower value).toList []

/-- The lower-cased space-joined string categories of a publisher entry
(the `categories_text` computed in agent.py, lines 333-338 and 376-381). -/
def categoriesText (publisher : Json) : String :=
  match publisher.objGetD "categories" (Json.arr []) with
  | .arr l =>
      pyJoin " " (l.filterMap (fun c => match c with
        | .str s => some (pyLower s)
        | _ => none))
  | _ => ""

/-- Embedding of `_is_rpc_like_publisher` (agent.py, lines 332-349). -/
def is_rpc_like_publisher (publisher : Json) : Bool :=
  let slug := pyLower (pyStr (publisher.objGetD "slug" (Json.str "")))
  let name := pyLower (pyStr (publisher.objGetD "name" (Json.str "")))
  let description := pyLower (pyStr (publisher.objGetD "description" (Json.str "")))
  let category_tokens := tokenize (categoriesText publisher)
  let slug_tokens := tokenize slug
  let name_tokens := tokenize name
  if category_tokens.contains "rpc" || slug_tokens.contains "rpc" ||
      name_tokens.contains "rpc" then
    true
  else
    containsSub description "json-rpc" || containsSub description "json rpc"

/-- The stripped lower-cased slug read by the discovery loop
(agent.py, line 371). -/
def pubSlug (publisher : Json) : String :=
  pyLower (pyStrip (pyStr (publisher.objGetD "slug" (Json.str ""))))

/-- The lower-cased name read by the discovery loop (agent.py, line 374). -/
def pubName (publisher : Json) : String :=
  pyLower (pyStr (publisher.objGetD "name" (Json.str "")))

/-- The lower-cased description read by the discovery loop
(agent.py, line 375). -/
def pubDescription (publisher : Json) : String :=
  pyLower (pyStr (publisher.objGetD "description" (Json.str "")))

/-- The union of slug, name, category and description tokens
(agent.py, line 387); concatenation has the same membership as set union. -/
def allTokens (publisher : Json) : List String :=
  tokenize (pubSlug publisher) ++ tokenize (pubName publisher) ++
    tokenize (categoriesText publisher) ++ tokenize (pubDescription publisher)

/-- The filter conditions of the discovery loop before scoring
(agent.py, lines 364-389): a dict, `is_active` not `False`, RPC-like, a
non-empty slug, and at least one chain term among the token union. -/
def isCandidate (terms : List String) (publisher : Json) : Bool :=
  publisher.isDict &&
    (match publisher.objGet "is_active" with
      | some (.bool false) => false
      | _ => true) &&
    is_rpc_like_publisher publisher &&
    !(pubSlug publisher == "") &&
    terms.any (fun term => (allTokens publisher).contains term)

/-- The fixed scoring weights of the discovery loop (agent.py,
lines 392-401). -/
def score (terms : List String) (publisher : Json) : Nat :=
  let slug := pubSlug publisher
  let slug_tokens := tokenize slug
  let name_tokens := tokenize (pubName publisher)
  let category_tokens := tokenize (categoriesText publisher)
  (if ("seren-".toList).isPrefixOf slug.toList then 20 else 0) +
    (if terms.any (fun t => slug_tokens.contains t) then 12 else 0) +
    (if terms.any (fun t => category_tokens.contains t) then 8 else 0) +
    (if terms.any (fun t => name_tokens.contains t) then 6 else 0) +
    (if containsSub (pubDescription publisher) "json-rpc" then 4 else 0)

/-- One iteration of the best-candidate fold (agent.py, lines 363-405):
the accumulator is `(best_score, best_slug)`, starting at `(-1, "")`. -/
def discoverStep (terms : List String) (acc : Int × String) (publisher : Json) :
    Int × String :=
  if isCandidate terms publisher then
    let slug := pubSlug publisher
    let sc : Int := (score terms publisher : Nat)
    if sc > acc.1 ∨ (sc = acc.1 ∧ pyStrLt slug acc.2 = true) then (sc, slug) else acc
  else acc

/-- The best discovered slug for one chain's terms (agent.py,
lines 361-408): the fold over the catalog followed by the
`if best_slug:` truthiness check. -/
def discoverChain (terms : List String) (publishers : List Json) : Option String :=
  let best := publishers.foldl (discoverStep terms) (-1, "")
  if best.2 == "" then none else some best.2

/-- Embedding of `_discovered_rpc_publishers` (agent.py, lines 356-410),
parameterized by the catalog pages already fetched. -/
def discovered_rpc_publishers (publishers : List Json) : List (String × String) :=
  CHAIN_DISCOVERY_TERMS.filterMap
    (fun ct => (discoverChain ct.2 publishers).map (fun s => (ct.1, s)))

/-- Validation loop of `_rpc_publisher_overrides` (agent.py, lines 320-329)
over the object's bindings in order. -/
def overridesGo : List (String × Json) → Except String (List (String × String))
  | [] => .ok []
  | (chain, slug) :: rest =>
      if !(SUPPORTED_CHAINS.contains chain) then
        .error ("rpc_publishers has unsupported chain key " ++ quoteCh ++ chain ++
          quoteCh ++ ".")
      else
        match slug with
        | .str s =>
            if pyStrip s == "" then
              .error ("rpc_publishers[" ++ quoteCh ++ chain ++ quoteCh ++
                "] must be a non-empty string.")
            else
              (overridesGo rest).map (fun l => (chain, pyStrip s) :: l)
        | _ =>
            .error ("rpc_publishers[" ++ quoteCh ++ chain ++ quoteCh ++
              "] must be a non-empty string.")

/-- Embedding of `_rpc_publisher_overrides` (agent.py, lines 313-329).
Keys of a decoded JSON object are strings, so the `isinstance(chain, str)`
guard of the source never fires. -/
def rpc_publisher_overrides (config : Json) : Except String (List (String × String)) :=
  match config.objGetD "rpc_publishers" (Json.obj []) with
  | .null => .ok []
  | .obj fields => overridesGo fields
  | _ =>
      .error ("Config field " ++ quoteCh ++ "rpc_publishers" ++ quoteCh ++
        " must be an object when provided.")

/-- Comparator for Python `sorted(discovered.items())`. -/
def pairLt (a b : String × String) : Bool :=
  pyStrLt a.1 b.1 || (a.1 == b.1 && pyStrLt a.2 b.2)

/-- The part of the `_rpc_publisher_for_chain` error message before the
enumeration of discovered mappings. -/
def rpcMsgPre (chain : String) : String :=
  "No RPC publisher is available for chain " ++ quoteCh ++ chain ++ quoteCh ++
    " (connector alias " ++ quoteCh ++ "rpc_" ++ chain ++ quoteCh ++ "). " ++
    "Auto-discovered mappings: "

/-- The part of the `_rpc_publisher_for_chain` error message after the
enumeration of discovered mappings. -/
def rpcMsgSuf : String :=
  ". Add an explicit override in config.rpc_publishers if needed."

/-- The `ConfigError` message of `_rpc_publisher_for_chain` (agent.py,
lines 429-438), enumerating the discovered chain-to-slug mappings in
sorted order, or the literal `none`. -/
def rpcNoPublisherMsg (chain : String) (discovered : List (String × String)) : String :=
  let available0 := pyJoin ", "
    ((sortBy pairLt discovered).map (fun p => p.1 ++ ":" ++ p.2))
  let available := if available0 == "" then "none" else available0
  rpcMsgPre chain ++ available ++ rpcMsgSuf

/-- Embedding of `_rpc_publisher_for_chain` (agent.py, lines 413-438),
parameterized by the catalog pages the client would fetch; a raised
`ConfigError` becomes `Except.error`. -/
def rpc_publisher_for_chain (chain : String) (publishers : List Json)
    (config : Json) : Except String (String × String) := do
  let overrides ← rpc_publisher_overrides config
  match overrides.lookup chain with
  | some slug => .ok (slug, "config.rpc_publishers")
  | none =>
      let discovered := discovered_rpc_publishers publishers
      match discovered.lookup chain with
      | some publisher => .ok (publisher, "catalog:/publishers")
      | none => .error (rpcNoPublisherMsg chain discovered)

end Curve

section SubstringLemmas

/-- A prefix occurrence is an occurrence. -/
theorem containsSubGo_of_isPrefixOf (n l : List Char) (h : n.isPrefixOf l = true) :
    containsSub.go n l = true := by
  cases l with
  | nil =>
      have : n = [] := by
        have := List.isPrefixOf_iff_prefix.mp h
        simpa using List.prefix_nil.mp this
      simp [containsSub.go, this]
  | cons c cs => simp [containsSub.go, h]

/-- Occurrences survive prepending. -/
theorem containsSubGo_append_left (pre n l : List Char)
    (h : containsSub.go n l = true) : containsSub.go n (pre ++ l) = true := by
  induction pre with
  | nil => simpa using h
  | cons c cs ih => simp [containsSub.go, ih]

/-- Occurrences survive appending. -/
theorem containsSubGo_append_right (n l suf : List Char)
    (h : containsSub.go n l = true) : containsSub.go n (l ++ suf) = true := by
  induction l with
  | nil =>
      have hn : n = [] := by
        simpa [containsSub.go, List.isEmpty_iff] using h
      subst hn
      cases suf with
      | nil => simp [containsSub.go]
      | cons c cs => simp [containsSub.go, List.isPrefixOf_iff_prefix]
  | cons c cs ih =>
      rw [List.cons_append]
      rw [containsSub.go] at h ⊢
      rcases Bool.or_eq_true_iff.mp h with hp | hgo
      · have : n <+: c :: cs := List.isPrefixOf_iff_prefix.mp hp
        have : n <+: c :: (cs ++ suf) := by
          rw [← List.cons_append]
          exact this.trans (List.prefix_append _ _)
        simp [List.isPrefixOf_iff_prefix.mpr this]
      · simp [ih hgo]

/-- `containsSub` survives prepending a string. -/
theorem containsSub_append_left (pre s x : String)
    (h : containsSub s x = true) : containsSub (pre ++ s) x = true := by
  unfold containsSub at h ⊢
  rw [show (pre ++ s).toList = pre.toList ++ s.toList from String.data_append pre s]
  exact containsSubGo_append_left _ _ _ h

/-- `containsSub` survives appending a string. -/
theorem containsSub_append_right (s suf x : String)
    (h : containsSub s x = true) : containsSub (s ++ suf) x = true := by
  unfold containsSub at h ⊢
  rw [show (s ++ suf).toList = s.toList ++ suf.toList from String.data_append s suf]
  exact containsSubGo_append_right _ _ _ h

/-- Every string occurs in itself. -/
theorem containsSub_self (x : String) : containsSub x x = true :=
  containsSubGo_of_isPrefixOf _ _ (List.isPrefixOf_iff_prefix.mpr List.prefix_rfl)

/-- The empty needle occurs everywhere. -/
theorem containsSub_empty_needle (s : String) : containsSub s "" = true := by
  unfold containsSub
  cases h : s.toList with
  | nil => simp [containsSub.go]
  | cons c cs => simp [containsSub.go, List.isPrefixOf_iff_prefix]

/-- Only the empty needle occurs in the empty string. -/
theorem eq_empty_of_containsSub_empty (x : String)
    (h : containsSub "" x = true) : x = "" := by
  unfold containsSub at h
  have : x.toList = [] := by
    simpa [containsSub.go, List.isEmpty_iff] using h
  cases x with
  | mk data => simpa [String.toList] using congrArg String.mk this

/-- Every element of a joined list occurs in the join. -/
theorem containsSub_pyJoin (sep : String) (l : List String) (x : String)
    (hx : x ∈ l) : containsSub (pyJoin sep l) x = true := by
  induction l with
  | nil => cases hx
  | cons y rest ih =>
      cases rest with
      | nil =>
          have : x = y := by simpa using hx
          subst this
          simpa [pyJoin] using containsSub_self x
      | cons z zs =>
          rcases List.mem_cons.mp hx with hxy | hxr
          · subst hxy
            show containsSub (x ++ sep ++ pyJoin sep (z :: zs)) x = true
            exact containsSub_append_right _ _ _
              (containsSub_append_right _ _ _ (containsSub_self x))
          · show containsSub (y ++ sep ++ pyJoin sep (z :: zs)) x = true
            exact containsSub_append_left _ _ _ (ih hxr)

/-- Membership is preserved by the insertion step. -/
theorem mem_insertSortedBy {α : Type} (lt : α → α → Bool) (x y : α) (l : List α) :
    y ∈ insertSortedBy lt x l ↔ y = x ∨ y ∈ l := by
  induction l with
  | nil => simp [insertSortedBy]
  | cons z zs ih =>
      by_cases h : lt x z = true
      · simp [insertSortedBy, h]
      · simp only [insertSortedBy, if_neg h, List.mem_cons, ih]
        tauto

/-- Sorting preserves membership. -/
theorem mem_sortBy {α : Type} (lt : α → α → Bool) (y : α) (l : List α) :
    y ∈ sortBy lt l ↔ y ∈ l := by
  induction l with
  | nil => simp [sortBy]
  | cons z zs ih =>
      simp only [sortBy, mem_insertSortedBy, List.mem_cons, ih]

end SubstringLemmas

section ClaimC6

/-- Claim C6: alias resolution for a chain is strict first-match-wins.  An
explicit configuration override is returned with source tag
`config.rpc_publishers` for every catalog whatsoever (the catalog is not
consulted: the conclusion is independent of `publishers`); otherwise the
catalog-discovered publisher is returned with source tag
`catalog:/publishers`; otherwise resolution fails with the `ConfigError`
whose message enumerates every discovered chain-to-alias mapping — each
discovered pair occurs verbatim as `chain:slug` in the message — or the
literal `none` when nothing was discovered. -/
theorem rpc_alias_resolution (chain : String) (publishers : List Json)
    (config : Json) (ovs : List (String × String))
    (hov : Curve.rpc_publisher_overrides config = .ok ovs) :
    (∀ slug, ovs.lookup chain = some slug →
      Curve.rpc_publisher_for_chain chain publishers config =
        .ok (slug, "config.rpc_publishers")) ∧
    (ovs.lookup chain = none →
      ∀ p, (Curve.discovered_rpc_publishers publishers).lookup chain = some p →
        Curve.rpc_publisher_for_chain chain publishers config =
          .ok (p, "catalog:/publishers")) ∧
    (ovs.lookup chain = none →
      (Curve.discovered_rpc_publishers publishers).lookup chain = none →
        Curve.rpc_publisher_for_chain chain publishers config =
          .error (Curve.rpcNoPublisherMsg chain
            (Curve.discovered_rpc_publishers publishers)) ∧
        (∀ cs ∈ Curve.discovered_rpc_publishers publishers,
          containsSub
            (Curve.rpcNoPublisherMsg chain (Curve.discovered_rpc_publishers publishers))
            (cs.1 ++ ":" ++ cs.2) = true) ∧
        (Curve.discovered_rpc_publishers publishers = [] →
          containsSub
            (Curve.rpcNoPublisherMsg chain (Curve.discovered_rpc_publishers publishers))
            "none" = true)) := by
  refine ⟨?_, ?_, ?_⟩
  · intro slug h
    simp [Curve.rpc_publisher_for_chain, hov, h, Bind.bind, Except.bind]
  · intro hnone p hp
    simp [Curve.rpc_publisher_for_chain, hov, hnone, hp, Bind.bind, Except.bind]
  · intro hnone hdisc
    refine ⟨?_, ?_, ?_⟩
    · simp [Curve.rpc_publisher_for_chain, hov, hnone, hdisc, Bind.bind, Except.bind]
    · intro cs hcs
      set disc := Curve.discovered_rpc_publishers publishers with hd
      set J := pyJoin ", " ((sortBy Curve.pairLt disc).map (fun p => p.1 ++ ":" ++ p.2))
        with hJ
      have hmem : (cs.1 ++ ":" ++ cs.2) ∈
          (sortBy Curve.pairLt disc).map (fun p => p.1 ++ ":" ++ p.2) :=
        List.mem_map.mpr ⟨cs, (mem_sortBy Curve.pairLt cs disc).mpr hcs, rfl⟩
      have hsubJ : containsSub J (cs.1 ++ ":" ++ cs.2) = true :=
        containsSub_pyJoin _ _ _ hmem
      by_cases hEmp : (J == "") = true
      · have hJempty : J = "" := by simpa using hEmp
        have hx : (cs.1 ++ ":" ++ cs.2) = "" :=
          eq_empty_of_containsSub_empty _ (hJempty ▸ hsubJ)
        rw [Curve.rpcNoPublisherMsg]
        simp only [← hJ, hEmp, if_pos, hx]
        exact containsSub_empty_needle _
      · rw [Curve.rpcNoPublisherMsg]
        simp only [← hJ, hEmp, if_neg, Bool.false_eq_true, if_false]
        exact containsSub_append_right _ _ _
          (containsSub_append_left _ _ _ hsubJ)
    · intro hempty
      rw [Curve.rpcNoPublisherMsg, hempty]
      simp only [sortBy, List.map_nil, pyJoin]
      exact containsSub_append_right _ _ _
        (containsSub_append_left _ _ _ (containsSub_self "none"))

/-- Witness for `rpc_alias_resolution`: a config override for `ethereum`
wins over a junk catalog and carries its source tag; with no override and
an empty catalog, resolution for `scroll` fails with the enumeration
message containing the literal `none`. -/
theorem rpc_alias_resolution_witness :
    (Curve.rpc_publisher_overrides
        (Json.obj [("rpc_publishers", Json.obj [("ethereum", Json.str " my-eth ")])]) =
      .ok [("ethereum", "my-eth")] ∧
     Curve.rpc_publisher_for_chain "ethereum" [Json.null]
        (Json.obj [("rpc_publishers", Json.obj [("ethereum", Json.str " my-eth ")])]) =
      .ok ("my-eth", "config.rpc_publishers")) ∧
    (Curve.rpc_publisher_for_chain "scroll" [] (Json.obj []) =
      .error (Curve.rpcNoPublisherMsg "scroll" (Curve.discovered_rpc_publishers [])) ∧
     containsSub (Curve.rpcNoPublisherMsg "scroll" (Curve.discovered_rpc_publishers []))
       "none" = true) := by
  refine ⟨⟨rfl, ?_⟩, ?_, ?_⟩
  · exact (rpc_alias_resolution "ethereum" [Json.null]
      (Json.obj [("rpc_publishers", Json.obj [("ethereum", Json.str " my-eth ")])])
      [("ethereum", "my-eth")] rfl).1 "my-eth" rfl
  · exact ((rpc_alias_resolution "scroll" [] (Json.obj []) [] rfl).2.2 rfl rfl).1
  · exact ((rpc_alias_resolution "scroll" [] (Json.obj []) [] rfl).2.2 rfl rfl).2.2 rfl

end ClaimC6

section ClaimC7

/-- Python string order is irreflexive. -/
theorem charListLt_irrefl : ∀ l : List Char, charListLt l l = false := by
  intro l
  induction l with
  | nil => rfl
  | cons c cs ih => simp [charListLt, ih]

/-- Python string order is transitive. -/
theorem charListLt_trans : ∀ a b c : List Char,
    charListLt a b = true → charListLt b c = true → charListLt a c = true := by
  intro a
  induction a with
  | nil =>
      intro b c hab hbc
      cases b with
      | nil => exact hbc
      | cons y ys =>
          cases c with
          | nil => simp [charListLt] at hbc
          | cons z zs => rfl
  | cons x xs ih =>
      intro b c hab hbc
      cases b with
      | nil => simp [charListLt] at hab
      | cons y ys =>
          cases c with
          | nil => simp [charListLt] at hbc
          | cons z zs =>
              rw [charListLt] at hab hbc ⊢
              by_cases hxy : x.toNat < y.toNat
              · by_cases hyz : y.toNat < z.toNat
                · have : x.toNat < z.toNat := by omega
                  simp [this]
                · rw [if_neg hyz] at hbc
                  by_cases hzy : z.toNat < y.toNat
                  · simp [hzy] at hbc
                  · have : x.toNat < z.toNat := by omega
                    simp [this]
              · rw [if_neg hxy] at hab
                by_cases hyx : y.toNat < x.toNat
                · simp [hyx] at hab
                · rw [if_neg hyx] at hab
                  by_cases hyz : y.toNat < z.toNat
                  · have hxz : x.toNat < z.toNat := by omega
                    simp [hxz]
                  · rw [if_neg hyz] at hbc
                    by_cases hzy : z.toNat < y.toNat
                    · simp [hzy] at hbc
                    · rw [if_neg hzy] at hbc
                      have hxz : ¬ x.toNat < z.toNat := by omega
                      have hzx : ¬ z.toNat < x.toNat := by omega
                      rw [if_neg hxz, if_neg hzx]
                      exact ih ys zs hab hbc

/-- `pyStrLt` is irreflexive. -/
theorem pyStrLt_irrefl (s : String) : pyStrLt s s = false :=
  charListLt_irrefl s.toList

/-- `pyStrLt` is transitive. -/
theorem pyStrLt_trans (a b c : String) (hab : pyStrLt a b = true)
    (hbc : pyStrLt b c = true) : pyStrLt a c = true :=
  charListLt_trans a.toList b.toList c.toList hab hbc

/-- A discovery candidate has a non-empty slug. -/
theorem pubSlug_ne_of_candidate (terms : List String) (p : Json)
    (h : Curve.isCandidate terms p = true) : (Curve.pubSlug p == "") = false := by
  rw [Curve.isCandidate] at h
  simp only [Bool.and_eq_true, Bool.not_eq_true'] at h
  exact h.1.2

/-- Invariant of the best-candidate fold: the accumulator is either the
initial `(-1, "")` with no candidate seen, or the score and slug of a seen
candidate of maximal score whose slug is not lexicographically preceded by
any other maximal candidate seen. -/
def discoveryInv (terms : List String) (ps : List Json) (acc : Int × String) : Prop :=
  (acc = (-1, "") ∧ ∀ p ∈ ps, Curve.isCandidate terms p = false) ∨
  (∃ p ∈ ps, Curve.isCandidate terms p = true ∧
    acc = ((Curve.score terms p : Int), Curve.pubSlug p) ∧
    (∀ q ∈ ps, Curve.isCandidate terms q = true →
      Curve.score terms q ≤ Curve.score terms p) ∧
    (∀ q ∈ ps, Curve.isCandidate terms q = true →
      Curve.score terms q = Curve.score terms p →
      pyStrLt (Curve.pubSlug q) (Curve.pubSlug p) = false))

/-- One fold step preserves the invariant. -/
theorem discoveryInv_step (terms : List String) (ps : List Json)
    (acc : Int × String) (pub : Json) (h : discoveryInv terms ps acc) :
    discoveryInv terms (ps ++ [pub]) (Curve.discoverStep terms acc pub) := by
  by_cases hc : Curve.isCandidate terms pub = true
  · rw [Curve.discoverStep, if_pos hc]
    by_cases hupd : ((Curve.score terms pub : Nat) : Int) > acc.1 ∨
        (((Curve.score terms pub : Nat) : Int) = acc.1 ∧
          pyStrLt (Curve.pubSlug pub) acc.2 = true)
    · rw [if_pos hupd]
      right
      refine ⟨pub, List.mem_append_right _ (List.mem_singleton_self pub), hc, rfl, ?_, ?_⟩
      · intro q hq hcq
        rcases List.mem_append.mp hq with hq | hq
        · rcases h with ⟨-, hnone⟩ | ⟨p, hp, hcp, hacc, hmax, -⟩
          · exact absurd hcq (by simp [hnone q hq])
          · have h1 : Curve.score terms q ≤ Curve.score terms p := hmax q hq hcq
            rcases hupd with hgt | ⟨heq, -⟩
            · have hgt2 : ((Curve.score terms p : Nat) : Int) <
                  ((Curve.score terms pub : Nat) : Int) := by simpa [hacc] using hgt
              have : Curve.score terms p < Curve.score terms pub := by
                exact_mod_cast hgt2
              omega
            · have heq2 : ((Curve.score terms pub : Nat) : Int) =
                  ((Curve.score terms p : Nat) : Int) := by simpa [hacc] using heq
              have : Curve.score terms pub = Curve.score terms p := by
                exact_mod_cast heq2
              omega
        · have : q = pub := by simpa using hq
          subst this
          exact le_refl _
      · intro q hq hcq hsq
        rcases List.mem_append.mp hq with hq | hq
        · rcases h with ⟨-, hnone⟩ | ⟨p, hp, hcp, hacc, hmax, hlex⟩
          · exact absurd hcq (by simp [hnone q hq])
          · rcases hupd with hgt | ⟨heq, hlt⟩
            · have hgt2 : ((Curve.score terms p : Nat) : Int) <
                  ((Curve.score terms pub : Nat) : Int) := by simpa [hacc] using hgt
              have h1 : Curve.score terms p < Curve.score terms pub := by
                exact_mod_cast hgt2
              have h2 : Curve.score terms q ≤ Curve.score terms p := hmax q hq hcq
              omega
            · have heq2 : ((Curve.score terms pub : Nat) : Int) =
                  ((Curve.score terms p : Nat) : Int) := by simpa [hacc] using heq
              have hlt2 : pyStrLt (Curve.pubSlug pub) (Curve.pubSlug p) = true := by
                simpa [hacc] using hlt
              have hpe : Curve.score terms pub = Curve.score terms p := by
                exact_mod_cast heq2
              have h2 : pyStrLt (Curve.pubSlug q) (Curve.pubSlug p) = false :=
                hlex q hq hcq (by omega)
              by_contra hqq
              rw [Bool.not_eq_false] at hqq
              have := pyStrLt_trans _ _ _ hqq hlt2
              rw [this] at h2
              exact Bool.noConfusion h2
        · have : q = pub := by simpa using hq
          subst this
          exact pyStrLt_irrefl _
    · rw [if_neg hupd]
      rcases h with ⟨hacc, -⟩ | ⟨p, hp, hcp, hacc, hmax, hlex⟩
      · exfalso
        apply hupd
        left
        rw [hacc]
        have : (0 : Int) ≤ ((Curve.score terms pub : Nat) : Int) := Int.ofNat_nonneg _
        omega
      · right
        push_neg at hupd
        refine ⟨p, List.mem_append_left _ hp, hcp, hacc, ?_, ?_⟩
        · intro q hq hcq
          rcases List.mem_append.mp hq with hq | hq
          · exact hmax q hq hcq
          · have hqp : q = pub := by simpa using hq
            rw [hqp]
            have h1 : ¬ ((Curve.score terms p : Nat) : Int) <
                ((Curve.score terms pub : Nat) : Int) := by
              have := hupd.1
              rw [hacc] at this
              simpa using this
            exact_mod_cast Int.not_lt.mp h1
        · intro q hq hcq hsq
          rcases List.mem_append.mp hq with hq | hq
          · exact hlex q hq hcq hsq
          · have hqp : q = pub := by simpa using hq
            rw [hqp] at hsq ⊢
            have heq : ((Curve.score terms pub : Nat) : Int) =
                ((Curve.score terms p : Nat) : Int) := by
              exact_mod_cast hsq
            have h2 := hupd.2 (by rw [hacc]; simpa using heq)
            rw [hacc] at h2
            simpa using h2
  · rw [Curve.discoverStep, if_neg hc]
    rcases h with ⟨hacc, hnone⟩ | ⟨p, hp, hcp, hacc, hmax, hlex⟩
    · left
      refine ⟨hacc, ?_⟩
      intro q hq
      rcases List.mem_append.mp hq with hq | hq
      · exact hnone q hq
      · have : q = pub := by simpa using hq
        subst this
        exact Bool.not_eq_true _ ▸ hc
    · right
      refine ⟨p, List.mem_append_left _ hp, hcp, hacc, ?_, ?_⟩
      · intro q hq hcq
        rcases List.mem_append.mp hq with hq | hq
        · exact hmax q hq hcq
        · have : q = pub := by simpa using hq
          subst this
          exact absurd hcq hc
      · intro q hq hcq hsq
        rcases List.mem_append.mp hq with hq | hq
        · exact hlex q hq hcq hsq
        · have : q = pub := by simpa using hq
          subst this
          exact absurd hcq hc

/-- The invariant holds after folding any remaining catalog suffix. -/
theorem discoveryInv_foldl (terms : List String) :
    ∀ (rest ps : List Json) (acc : Int × String), discoveryInv terms ps acc →
      discoveryInv terms (ps ++ rest) (rest.foldl (Curve.discoverStep terms) acc) := by
  intro rest
  induction rest with
  | nil => intro ps acc h; simpa using h
  | cons pub rest ih =>
      intro ps acc h
      have h2 := ih (ps ++ [pub]) _ (discoveryInv_step terms ps acc pub h)
      rw [List.append_assoc] at h2
      simpa using h2

/-- Claim C7: catalog discovery is a deterministic argmax.  For each chain's
terms, when discovery yields no slug, no catalog entry passes the candidate
filter (active, RPC-like, non-empty slug, whole-token term match); when it
yields `s`, some candidate entry has slug `s`, its fixed-weight score is
maximal among all candidates, and no candidate of equal score has a
lexicographically smaller slug. -/
theorem catalog_discovery_argmax (terms : List String) (publishers : List Json) :
    (Curve.discoverChain terms publishers = none →
      ∀ p ∈ publishers, Curve.isCandidate terms p = false) ∧
    (∀ s, Curve.discoverChain terms publishers = some s →
      ∃ p ∈ publishers, Curve.isCandidate terms p = true ∧ Curve.pubSlug p = s ∧
        (∀ q ∈ publishers, Curve.isCandidate terms q = true →
          Curve.score terms q ≤ Curve.score terms p) ∧
        (∀ q ∈ publishers, Curve.isCandidate terms q = true →
          Curve.score terms q = Curve.score terms p →
          pyStrLt (Curve.pubSlug q) s = false)) := by
  have hinv : discoveryInv terms publishers
      (publishers.foldl (Curve.discoverStep terms) (-1, "")) := by
    have := discoveryInv_foldl terms publishers [] (-1, "")
      (Or.inl ⟨rfl, by simp⟩)
    simpa using this
  constructor
  · intro hnone p hp
    rw [Curve.discoverChain] at hnone
    rcases hinv with ⟨-, hall⟩ | ⟨p', hp', hcp', hacc, -, -⟩
    · exact hall p hp
    · exfalso
      rw [hacc] at hnone
      simp only at hnone
      have hne := pubSlug_ne_of_candidate terms p' hcp'
      rw [hne] at hnone
      exact Option.noConfusion hnone
  · intro s hs
    rw [Curve.discoverChain] at hs
    rcases hinv with ⟨hacc, -⟩ | ⟨p, hp, hcp, hacc, hmax, hlex⟩
    · exfalso
      rw [hacc] at hs
      simp at hs
    · rw [hacc] at hs
      simp only at hs
      have hne := pubSlug_ne_of_candidate terms p hcp
      rw [hne] at hs
      have hslug : Curve.pubSlug p = s := by
        simpa using hs
      exact ⟨p, hp, hcp, hslug, hmax, hslug ▸ hlex⟩

/-- A catalog entry with slug `b-eth`, RPC-like, matching `ethereum`. -/
def c7Pub1 : Json :=
  Json.obj [("slug", Json.str "b-eth"), ("name", Json.str "B"),
    ("description", Json.str "desc"),
    ("categories", Json.arr [Json.str "rpc", Json.str "ethereum"])]

/-- A catalog entry with slug `a-eth`, otherwise scoring like `c7Pub1`. -/
def c7Pub2 : Json :=
  Json.obj [("slug", Json.str "a-eth"), ("name", Json.str "A"),
    ("description", Json.str "desc"),
    ("categories", Json.arr [Json.str "rpc", Json.str "ethereum"])]

/-- Witness for `catalog_discovery_argmax`: two equal-scoring candidates
for `ethereum`; the lexicographically smaller slug `a-eth` wins, and the
winner satisfies the argmax characterization. -/
theorem catalog_discovery_argmax_witness :
    Curve.discoverChain ["ethereum"] [c7Pub1, c7Pub2] = some "a-eth" ∧
    (∃ p ∈ [c7Pub1, c7Pub2], Curve.isCandidate ["ethereum"] p = true ∧
      Curve.pubSlug p = "a-eth" ∧
      (∀ q ∈ [c7Pub1, c7Pub2], Curve.isCandidate ["ethereum"] q = true →
        Curve.score ["ethereum"] q ≤ Curve.score ["ethereum"] p) ∧
      (∀ q ∈ [c7Pub1, c7Pub2], Curve.isCandidate ["ethereum"] q = true →
        Curve.score ["ethereum"] q = Curve.score ["ethereum"] p →
        pyStrLt (Curve.pubSlug q) "a-eth" = false)) :=
  ⟨rfl, (catalog_discovery_argmax ["ethereum"] [c7Pub1, c7Pub2]).2 "a-eth" rfl⟩

end ClaimC7

namespace Curve

/-- `bool(pagination.get("has_more")) if isinstance(pagination, dict) else
False` (agent.py, line 158). -/
def pageHasMore (pagination : Json) : Bool :=
  if pagination.isDict then ((pagination.objGet "has_more").getD Json.null).truthy
  else false

/-- The offset advance of one pagination step (agent.py, lines 162-166):
`pagination.count` when it is a positive int — Python `bool` being an `int`
subclass, `True` counts as the positive int `1` — else the number of items
actually received. -/
def pageAdvance (pagination : Json) (page_items : List Json) : Nat :=
  let count := if pagination.isDict then pagination.objGet "count" else none
  match count with
  | some (.num n) => if 0 < n then n.toNat else page_items.length
  | some (.bool b) => if b then 1 else page_items.length
  | _ => page_items.length

/-- Embedding of the loop of `SerenPublisherClient.list_publishers`
(agent.py, lines 143-168).  `request` models `self._request` for the
catalog listing at a given offset — an `Except.error` models a raised
`PublisherError` — the fuel is the remaining page budget of
`for _ in range(max_pages)`, and the returned trace records every offset
actually requested. -/
def list_publishersGo (request : Nat → Except String Json) :
    Nat → Nat → List Json → List Nat → Except String (List Json) × List Nat
  | 0, _offset, publishers, trace => (.ok publishers, trace)
  | fuel + 1, offset, publishers, trace =>
      match request offset with
      | .error e => (.error e, trace ++ [offset])
      | .ok payload =>
          match payload.objGet "data" with
          | some (.arr data) =>
              let page_items := data.filter Json.isDict
              let publishers := publishers ++ page_items
              let pagination := payload.objGetD "pagination" (Json.obj [])
              if !pageHasMore pagination || page_items.isEmpty then
                (.ok publishers, trace ++ [offset])
              else
                list_publishersGo request fuel (offset + pageAdvance pagination page_items)
                  publishers (trace ++ [offset])
          | _ => (.error "Invalid publisher catalog response: missing data list.",
              trace ++ [offset])

/-- `SerenPublisherClient.list_publishers` with its request trace; the
default page ceiling of the source is `max_pages = 5`. -/
def list_publishers (request : Nat → Except String Json) (max_pages : Nat) :
    Except String (List Json) × List Nat :=
  list_publishersGo request max_pages 0 [] []

end Curve

section ClaimC8

/-- The trace never grows by more than the remaining fuel. -/
theorem list_publishersGo_trace_bound (request : Nat → Except String Json) :
    ∀ (fuel offset : Nat) (publishers : List Json) (trace : List Nat),
      (Curve.list_publishersGo request fuel offset publishers trace).2.length ≤
        trace.length + fuel := by
  intro fuel
  induction fuel with
  | zero => intro offset publishers trace; simp [Curve.list_publishersGo]
  | succ n ih =>
      intro offset publishers trace
      rw [Curve.list_publishersGo]
      cases hreq : request offset with
      | error e => simp
      | ok payload =>
          cases hdata : payload.objGet "data" with
          | none => simp [hdata]
          | some v =>
              cases v with
              | arr data =>
                  simp only [hdata]
                  split
                  · simp
                  · calc (Curve.list_publishersGo request n _ _ _).2.length ≤
                          (trace ++ [offset]).length + n := ih _ _ _
                      _ = trace.length + (n + 1) := by simp; omega
              | null => simp [hdata]
              | bool b => simp [hdata]
              | num m => simp [hdata]
              | str s => simp [hdata]
              | obj fields => simp [hdata]

/-- Claim C8: the catalog pagination loop terminates for every backend
behaviour — it requests at most `max_pages` offsets even against a backend
forever reporting `has_more` (with empty or non-empty pages, or errors);
one step with a well-formed page either stops, when `has_more` is falsy or
the page has no dict items, or requests again with the offset advanced by
`pagination.count` when that is a positive integer and by the number of
items actually received otherwise (`pageAdvance`). -/
theorem pagination_terminates (request : Nat → Except String Json)
    (max_pages : Nat) (fuel offset : Nat) (publishers : List Json)
    (trace : List Nat) (payload : Json) (data : List Json) :
    ((Curve.list_publishers request max_pages).2.length ≤ max_pages) ∧
    (request offset = .ok payload → payload.objGet "data" = some (.arr data) →
      ((!Curve.pageHasMore (payload.objGetD "pagination" (Json.obj [])) ||
          (data.filter Json.isDict).isEmpty) = true →
        Curve.list_publishersGo request (fuel + 1) offset publishers trace =
          (.ok (publishers ++ data.filter Json.isDict), trace ++ [offset])) ∧
      ((!Curve.pageHasMore (payload.objGetD "pagination" (Json.obj [])) ||
          (data.filter Json.isDict).isEmpty) = false →
        Curve.list_publishersGo request (fuel + 1) offset publishers trace =
          Curve.list_publishersGo request fuel
            (offset + Curve.pageAdvance (payload.objGetD "pagination" (Json.obj []))
              (data.filter Json.isDict))
            (publishers ++ data.filter Json.isDict) (trace ++ [offset]))) := by
  refine ⟨?_, ?_⟩
  · have := list_publishersGo_trace_bound request max_pages 0 [] []
    simpa [Curve.list_publishers] using this
  · intro hreq hdata
    constructor
    · intro hstop
      rw [Curve.list_publishersGo]
      simp [hreq, hdata, hstop]
    · intro hgo
      rw [Curve.list_publishersGo]
      simp [hreq, hdata, hgo]

/-- A backend that forever answers `has_more: true` with an empty page. -/
def c8Backend : Nat → Except String Json := fun _ =>
  .ok (Json.obj [("data", Json.arr []),
    ("pagination", Json.obj [("has_more", Json.bool true), ("count", Json.num 7)])])

/-- Witness for `pagination_terminates`: against the forever-has_more
empty-page backend the default five-page run requests at most five offsets
(the empty page in fact stops the loop immediately), and a well-formed
non-empty page with `count: 7` advances the offset by exactly 7. -/
theorem pagination_terminates_witness :
    ((Curve.list_publishers c8Backend 5).2.length ≤ 5) ∧
    (Curve.list_publishersGo c8Backend 1 0 [] [] =
      (.ok [], [0])) := by
  constructor
  · exact (pagination_terminates c8Backend 5 0 0 [] [] Json.null []).1
  · have h := ((pagination_terminates c8Backend 5 0 0 [] []
      (Json.obj [("data", Json.arr []),
        ("pagination", Json.obj [("has_more", Json.bool true), ("count", Json.num 7)])])
      []).2 rfl rfl).1 (by rfl)
    simpa using h

end ClaimC8

namespace Curve

/-- A capability probe: `{method, path, body}` (agent.py, lines 23-49). -/
structure Probe where
  method : String
  path : String
  body : Json
deriving Inhabited

/-- The JSON-RPC `eth_chainId` probe body shared by the POST defaults. -/
def chainIdBody : Json :=
  Json.obj [("jsonrpc", Json.str "2.0"), ("id", Json.num 1),
    ("method", Json.str "eth_chainId"), ("params", Json.arr [])]

/-- `DEFAULT_RPC_PROBES` (agent.py, lines 23-49). -/
def DEFAULT_RPC_PROBES : List Probe :=
  [⟨"GET", "/health", Json.obj []⟩,
   ⟨"POST", "/", chainIdBody⟩,
   ⟨"POST", "/rpc", chainIdBody⟩]

/-- Validation loop of `_rpc_probe_config` over `rpc_capability.probes`
(agent.py, lines 454-476), carrying the enumeration index for the error
messages. -/
def probeConfigGo : Nat → List Json → Except String (List Probe)
  | _, [] => .ok []
  | index, probe :: rest =>
      if !probe.isDict then
        .error ("rpc_capability.probes[" ++ toString index ++ "] must be an object.")
      else
        let method := pyUpper (pyStr (probe.objGetD "method" (Json.str "GET")))
        let path := pyStr (probe.objGetD "path" (Json.str ""))
        let body := probe.objGetD "body" (Json.obj [])
        if !(["GET", "POST", "PUT", "PATCH", "DELETE"].contains method) then
          .error ("rpc_capability.probes[" ++ toString index ++ "].method " ++
            quoteCh ++ method ++ quoteCh ++ " is not supported.")
        else if !(("/".toList).isPrefixOf path.toList) then
          .error ("rpc_capability.probes[" ++ toString index ++
            "].path must start with " ++ quoteCh ++ "/" ++ quoteCh ++ ".")
        else if !body.isDict then
          .error ("rpc_capability.probes[" ++ toString index ++ "].body must be an object.")
        else
          (probeConfigGo (index + 1) rest).map
            (fun l => (⟨method, path, body⟩ : Probe) :: l)

/-- Embedding of `_rpc_probe_config` (agent.py, lines 441-476): the
`required` flag (default `True`) and the probe list (defaults when
`probes` is absent or `None`); a raised `ConfigError` becomes
`Except.error`. -/
def rpc_probe_config (config : Json) : Except String (Bool × List Probe) :=
  let capability := config.objGetD "rpc_capability" (Json.obj [])
  if !capability.isDict then
    .error ("Config field " ++ quoteCh ++ "rpc_capability" ++ quoteCh ++
      " must be an object when provided.")
  else
    let required := ((capability.objGet "required").getD (Json.bool true)).truthy
    match capability.objGet "probes" with
    | none => .ok (required, DEFAULT_RPC_PROBES)
    | some .null => .ok (required, DEFAULT_RPC_PROBES)
    | some (.arr probes_raw) =>
        if probes_raw.isEmpty then
          .error "rpc_capability.probes must be a non-empty list."
        else
          (probeConfigGo 0 probes_raw).map (fun probes => (required, probes))
    | some _ => .error "rpc_capability.probes must be a non-empty list."

/-- The probe loop of `check_rpc_capability` (agent.py, lines 494-515):
first probe whose call succeeds, together with the error strings
accumulated from the failed attempts before it. -/
def firstProbeSuccess
    (call : String → String → String → Json → Except String (List (String × Json)))
    (publisher : String) :
    List Probe → List String → Option (Probe × List (String × Json)) × List String
  | [], errors => (none, errors)
  | probe :: rest, errors =>
      match call publisher probe.method probe.path probe.body with
      | .ok response => (some (probe, response), errors)
      | .error e =>
          firstProbeSuccess call publisher rest
            (errors ++ [probe.method ++ " " ++ probe.path ++ ": " ++ e])

/-- The success dict returned on the first reachable probe (agent.py,
lines 505-513); `response_preview` is `sorted(response.keys())`. -/
def okProbeResult (required : Bool) (connector publisher source : String)
    (probe : Probe) (response : List (String × Json)) : Json :=
  Json.obj [("status", Json.str "ok"), ("required", Json.bool required),
    ("connector", Json.str connector), ("publisher", Json.str publisher),
    ("publisher_source", Json.str source),
    ("probe", Json.obj [("method", Json.str probe.method),
      ("path", Json.str probe.path)]),
    ("response_preview", Json.arr ((sortStrings (response.map Prod.fst)).map Json.str))]

/-- The aggregated failure message (agent.py, lines 517-524). -/
def probeFailMsg (chain connector publisher : String) (probes : List Probe)
    (errors : List String) : String :=
  let probe_labels := pyJoin ", " (probes.map (fun p => p.method ++ " " ++ p.path))
  let message := "RPC capability check failed for chain " ++ quoteCh ++ chain ++
    quoteCh ++ " (connector " ++ quoteCh ++ connector ++ quoteCh ++
    ", publisher " ++ quoteCh ++ publisher ++ quoteCh ++ "). Probes attempted: " ++
    probe_labels ++ "."
  if errors.isEmpty then message
  else message ++ " Errors: " ++ pyJoin " | " errors

/-- Embedding of `check_rpc_capability` (agent.py, lines 479-535),
parameterized by the transport `call` and the catalog pages; a raised
`ConfigError` becomes `Except.error`. -/
def check_rpc_capability
    (call : String → String → String → Json → Except String (List (String × Json)))
    (publishers : List Json) (chain : String) (config : Json) :
    Except String Json := do
  let (required, probes) ← rpc_probe_config config
  let connector_alias := "rpc_" ++ chain
  let (publisher, publisher_source) ← rpc_publisher_for_chain chain publishers config
  match firstProbeSuccess call publisher probes [] with
  | (some (probe, response), _errors) =>
      .ok (okProbeResult required connector_alias publisher publisher_source
        probe response)
  | (none, errors) =>
      let message := probeFailMsg chain connector_alias publisher probes errors
      if required then .error message
      else
        .ok (Json.obj [("status", Json.str "warning"),
          ("required", Json.bool required),
          ("connector", Json.str connector_alias),
          ("publisher", Json.str publisher),
          ("publisher_source", Json.str publisher_source),
          ("error", Json.str message)])

end Curve

section ClaimC9

/-- Skipping a failing prefix only accumulates its error strings. -/
theorem firstProbeSuccess_append_fail
    (call : String → String → String → Json → Except String (List (String × Json)))
    (publisher : String) (errf : Curve.Probe → String) :
    ∀ (pre rest : List Curve.Probe) (errors0 : List String),
      (∀ q ∈ pre, call publisher q.method q.path q.body = .error (errf q)) →
      Curve.firstProbeSuccess call publisher (pre ++ rest) errors0 =
        Curve.firstProbeSuccess call publisher rest
          (errors0 ++ pre.map (fun q => q.method ++ " " ++ q.path ++ ": " ++ errf q)) := by
  intro pre
  induction pre with
  | nil => intro rest errors0 _; simp
  | cons q qs ih =>
      intro rest errors0 hfail
      have hq : call publisher q.method q.path q.body = .error (errf q) :=
        hfail q (List.mem_cons_self q qs)
      rw [List.cons_append, Curve.firstProbeSuccess, hq]
      show Curve.firstProbeSuccess call publisher (qs ++ rest)
          (errors0 ++ [q.method ++ " " ++ q.path ++ ": " ++ errf q]) = _
      rw [ih rest _ (fun r hr => hfail r (List.mem_cons_of_mem q hr))]
      simp

/-- Claim C9: the capability probe tries the configured probes in order and
returns the success dict on the first probe whose call completes without a
gateway error, for every response payload whatsoever; when every probe
fails, with `required = true` it raises the `ConfigError` aggregating all
per-probe error strings — each of which occurs verbatim in the message —
and with `required = false` it returns the warning dict carrying that same
message instead of raising. -/
theorem capability_probe_policy
    (call : String → String → String → Json → Except String (List (String × Json)))
    (publishers : List Json) (chain : String) (config : Json)
    (required : Bool) (probes : List Curve.Probe) (publisher source : String)
    (errf : Curve.Probe → String)
    (hcfg : Curve.rpc_probe_config config = .ok (required, probes))
    (hres : Curve.rpc_publisher_for_chain chain publishers config =
      .ok (publisher, source)) :
    (∀ pre probe post response, probes = pre ++ probe :: post →
      (∀ q ∈ pre, call publisher q.method q.path q.body = .error (errf q)) →
      call publisher probe.method probe.path probe.body = .ok response →
      Curve.check_rpc_capability call publishers chain config =
        .ok (Curve.okProbeResult required ("rpc_" ++ chain) publisher source
          probe response)) ∧
    ((∀ q ∈ probes, call publisher q.method q.path q.body = .error (errf q)) →
      (required = true →
        Curve.check_rpc_capability call publishers chain config =
          .error (Curve.probeFailMsg chain ("rpc_" ++ chain) publisher probes
            (probes.map (fun q => q.method ++ " " ++ q.path ++ ": " ++ errf q)))) ∧
      (required = false →
        Curve.check_rpc_capability call publishers chain config =
          .ok (Json.obj [("status", Json.str "warning"),
            ("required", Json.bool required),
            ("connector", Json.str ("rpc_" ++ chain)),
            ("publisher", Json.str publisher),
            ("publisher_source", Json.str source),
            ("error", Json.str (Curve.probeFailMsg chain ("rpc_" ++ chain) publisher
              probes (probes.map (fun q => q.method ++ " " ++ q.path ++ ": " ++ errf q))))])) ∧
      (∀ q ∈ probes,
        containsSub
          (Curve.probeFailMsg chain ("rpc_" ++ chain) publisher probes
            (probes.map (fun r => r.method ++ " " ++ r.path ++ ": " ++ errf r)))
          (q.method ++ " " ++ q.path ++ ": " ++ errf q) = true)) := by
  constructor
  · intro pre probe post response hsplit hpre hok
    rw [Curve.check_rpc_capability]
    simp only [hcfg, hres, Bind.bind, Except.bind]
    rw [hsplit, firstProbeSuccess_append_fail call publisher errf pre (probe :: post) [] hpre]
    rw [Curve.firstProbeSuccess, hok]
  · intro hall
    have hfirst : Curve.firstProbeSuccess call publisher probes [] =
        (none, probes.map (fun q => q.method ++ " " ++ q.path ++ ": " ++ errf q)) := by
      have := firstProbeSuccess_append_fail call publisher errf probes [] [] hall
      simpa using this
    refine ⟨?_, ?_, ?_⟩
    · intro hreq
      rw [Curve.check_rpc_capability]
      simp only [hcfg, hres, Bind.bind, Except.bind]
      rw [hfirst]
      simp [hreq]
    · intro hreq
      rw [Curve.check_rpc_capability]
      simp only [hcfg, hres, Bind.bind, Except.bind]
      rw [hfirst]
      simp [hreq]
    · intro q hq
      rw [Curve.probeFailMsg]
      have hmem : (q.method ++ " " ++ q.path ++ ": " ++ errf q) ∈
          probes.map (fun r => r.method ++ " " ++ r.path ++ ": " ++ errf r) :=
        List.mem_map.mpr ⟨q, hq, rfl⟩
      have hne : (probes.map
          (fun r => r.method ++ " " ++ r.path ++ ": " ++ errf r)).isEmpty = false := by
        cases probes with
        | nil => cases hq
        | cons a l => simp
      simp only [hne, Bool.false_eq_true, if_false]
      exact containsSub_append_left _ _ _ (containsSub_pyJoin _ _ _ hmem)

/-- A transport whose `/health` probe is unreachable but whose JSON-RPC
probe answers. -/
def c9Call : String → String → String → Json → Except String (List (String × Json)) :=
  fun _publisher method path _body =>
    if method == "GET" && path == "/health" then
      .error "eth HTTP 404 on /publishers/eth/health: not found"
    else
      .ok [("result", Json.str "0x1"), ("id", Json.num 1)]

/-- The per-probe error strings used by the C9 witness. -/
def c9Errf : Curve.Probe → String :=
  fun q => "eth HTTP 404 on /publishers/eth" ++ q.path ++ ": not found"

/-- Witness for `capability_probe_policy`: with the default probes for an
`ethereum` override config, the first probe fails, the second succeeds,
and the check returns the success dict for the second probe. -/
theorem capability_probe_policy_witness :
    Curve.rpc_probe_config
        (Json.obj [("rpc_publishers", Json.obj [("ethereum", Json.str "eth")])]) =
      .ok (true, Curve.DEFAULT_RPC_PROBES) ∧
    Curve.rpc_publisher_for_chain "ethereum" []
        (Json.obj [("rpc_publishers", Json.obj [("ethereum", Json.str "eth")])]) =
      .ok ("eth", "config.rpc_publishers") ∧
    Curve.check_rpc_capability c9Call []
        "ethereum" (Json.obj [("rpc_publishers", Json.obj [("ethereum", Json.str "eth")])]) =
      .ok (Curve.okProbeResult true "rpc_ethereum" "eth" "config.rpc_publishers"
        ⟨"POST", "/", Curve.chainIdBody⟩
        [("result", Json.str "0x1"), ("id", Json.num 1)]) := by
  refine ⟨rfl, rfl, ?_⟩
  have h := (capability_probe_policy c9Call []
    "ethereum" (Json.obj [("rpc_publishers", Json.obj [("ethereum", Json.str "eth")])])
    true Curve.DEFAULT_RPC_PROBES "eth" "config.rpc_publishers" c9Errf rfl rfl).1
    [⟨"GET", "/health", Json.obj []⟩] ⟨"POST", "/", Curve.chainIdBody⟩
    [⟨"POST", "/rpc", Curve.chainIdBody⟩]
    [("result", Json.str "0x1"), ("id", Json.num 1)]
    rfl (by intro q hq; rw [List.mem_singleton] at hq; subst hq; rfl) rfl
  simpa using h

end ClaimC9
